import Mathlib

/-!
Verification of the geo-three excerpt: the Bing maps tile provider
(source/providers/BingMapsProvider.ts) and the MapHeightNodeShader stub.

The quadkey encoder is embedded with JavaScript bitwise semantics: the
operands of the bitwise AND are converted to 32-bit integers (their bit
pattern is the value mod 2 to the 32) and the shift count of a left shift
is taken mod 32.  Since the mask and the AND result are only tested
against zero, bit patterns as natural numbers are a faithful model of the
int32 values.
-/

namespace GeoThree

/-- The characters produced by the loop in BingMapsProvider.quadKey.
The source loops i from zoom down to 1 with mask = 1 << (i - 1); here the
pattern i + 1 plays the role of the source loop variable i, so the mask is
the bit pattern of the JavaScript value 1 << i, namely 2 ^ (i % 32).
The source appends the decimal digit of cell, which is always between 0
and 3, so the appended character is Char.ofNat (48 + cell). -/
def BingMapsProvider.quadKeyChars : Nat → Nat → Nat → List Char
  | 0, _, _ => []
  | i + 1, x, y =>
    let mask := 2 ^ (i % 32)
    let cell : Nat :=
      (if (x % 2 ^ 32) &&& mask ≠ 0 then 1 else 0) +
      (if (y % 2 ^ 32) &&& mask ≠ 0 then 2 else 0)
    Char.ofNat (48 + cell) :: BingMapsProvider.quadKeyChars i x y

/-- BingMapsProvider.quadKey: convert x, y, zoom quadtree coordinates to a
Bing maps quadkey string. -/
def BingMapsProvider.quadKey (zoom x y : Nat) : String :=
  ⟨BingMapsProvider.quadKeyChars zoom x y⟩

/-- The fields of a BingMapsProvider instance, with the initializers of
the class body as default values. -/
structure BingMapsProvider where
  maxZoom : Nat := 19
  apiKey : String
  type : String
  format : String := "jpeg"
  mapSize : Nat := 512
  subdomain : String := "t1"
deriving DecidableEq

/-- Display an aerial view of the map. -/
def BingMapsProvider.AERIAL : String := "a"

/-- Display a road view of the map. -/
def BingMapsProvider.ROAD : String := "r"

/-- Display an aerial view of the map with labels. -/
def BingMapsProvider.AERIAL_LABELS : String := "h"

/-- Display an oblique view of the map. -/
def BingMapsProvider.OBLIQUE : String := "o"

/-- Display an oblique view of the map with labels. -/
def BingMapsProvider.OBLIQUE_LABELS : String := "b"

/-- The class constructor: an undefined argument is modelled as none.
The source stores apiKey when it is not undefined and the empty string
otherwise, and type when it is not undefined and BingMapsProvider.AERIAL
otherwise; the remaining fields keep their initializers. -/
def BingMapsProvider.constructor (apiKey type : Option String) : BingMapsProvider :=
  { apiKey := apiKey.getD ""
    type := type.getD BingMapsProvider.AERIAL }

/-- The URL string assigned to image.src inside fetchTile.  The executor
is an arrow function, so this refers to the provider instance. -/
def BingMapsProvider.fetchTileUrl (p : BingMapsProvider) (zoom x y : Nat) : String :=
  "http://ecn." ++ p.subdomain ++ ".tiles.virtualearth.net/tiles/" ++ p.type ++
    BingMapsProvider.quadKey zoom x y ++ ".jpeg?g=1173"

/-- The URL template claimed by the spec, with the placeholders scheme,
hostSuffix and query left free: the subdomain field, the type field, the
quadkey, and the format field used as the image extension.  This follows
the words of the spec and is compared with fetchTileUrl, which follows
the source. -/
def BingMapsProvider.specTemplateUrl (scheme hostSuffix query : String)
    (p : BingMapsProvider) (zoom x y : Nat) : String :=
  scheme ++ "://" ++ p.subdomain ++ "." ++ hostSuffix ++ "/tiles/" ++ p.type ++
    BingMapsProvider.quadKey zoom x y ++ "." ++ p.format ++ "?" ++ query

/-- A MapHeightNodeShader node.  The constructor forwards parentNode,
mapView, location, level, x and y to the MapHeightNode base constructor;
the base class is not among the provided sources, so the state it
maintains is kept abstract in the field baseState. -/
structure MapHeightNodeShader (α β σ : Type) where
  parentNode : α
  mapView : β
  location : Nat
  level : Nat
  x : Nat
  y : Nat
  baseState : σ

/-- MapHeightNodeShader.prototype.loadHeightGeometry: the body of the
method in the source is empty, so it returns undefined (modelled Unit)
and the node state is returned unchanged. -/
def MapHeightNodeShader.loadHeightGeometry {α β σ : Type}
    (n : MapHeightNodeShader α β σ) : MapHeightNodeShader α β σ × Unit :=
  (n, ())

/-- Events the environment can deliver to one in-flight tile fetch:
cancellation of the handle by the caller, and the terminal events of the
image element created by fetchTile (onload fires when the payload loads
and decodes, onerror fires on transport failure or undecodable payload). -/
inductive FetchEvent where
  | cancel
  | loadOk
  | loadErr
deriving DecidableEq

/-- The settlement state of the cancelable promise returned by fetchTile. -/
inductive PromiseState where
  | pending
  | fulfilled
  | rejected
  | canceled
deriving DecidableEq

/-- A continuation invocation observed by the caller: success carries the
image; failure carries the rejection detail, none when reject is called
with no argument. -/
inductive Outcome where
  | success
  | failure (detail : Option String)
deriving DecidableEq

/-- The observable state of one fetchTile call: the promise state, the
list of continuation invocations in order, and whether the image element
is still loading. -/
structure FetchState where
  promise : PromiseState
  outcomes : List Outcome
  transportActive : Bool
deriving DecidableEq

/-- The state right after fetchTile returns: the promise is pending and
assigning image.src has started the load. -/
def fetchTileStart : FetchState :=
  { promise := PromiseState.pending, outcomes := [], transportActive := true }

/-- Modelled from the spec: CancelablePromise (source/utils/CancelablePromise.ts
is not among the provided sources).  Per the spec the handle settles at
most once, resolve and reject invoke their continuation only from the
pending state, and cancel moves a pending promise to canceled so that no
continuation fires afterwards.  The wiring of the events comes from the
fetchTile source: image.onload calls resolve(image), image.onerror calls
reject() with no argument, and the executor registers no abort action, so
a cancel event leaves the transport flag untouched. -/
def fetchStep (s : FetchState) (e : FetchEvent) : FetchState :=
  match e with
  | FetchEvent.cancel =>
      { s with promise := if s.promise = PromiseState.pending
                          then PromiseState.canceled else s.promise }
  | FetchEvent.loadOk =>
      if s.promise = PromiseState.pending then
        { promise := PromiseState.fulfilled
          outcomes := s.outcomes ++ [Outcome.success]
          transportActive := false }
      else { s with transportActive := false }
  | FetchEvent.loadErr =>
      if s.promise = PromiseState.pending then
        { promise := PromiseState.rejected
          outcomes := s.outcomes ++ [Outcome.failure none]
          transportActive := false }
      else { s with transportActive := false }

/-- Run a fetch from its start state through a list of events. -/
def fetchRun (evs : List FetchEvent) : FetchState :=
  evs.foldl fetchStep fetchTileStart

/-- True of the image events: the terminal events of a single image load.
A trace is valid when the image element fires at most one terminal event. -/
def isLoadEvent : FetchEvent → Bool
  | FetchEvent.cancel => false
  | _ => true

/-- A single image load fires at most one terminal event. -/
def validTrace (evs : List FetchEvent) : Prop :=
  (evs.filter isLoadEvent).length ≤ 1

/-! ## Helper lemmas about the quadkey encoder -/

lemma land_two_pow_ne_zero_iff (a k : Nat) : a &&& 2 ^ k ≠ 0 ↔ a.testBit k = true := by
  rw [Nat.and_two_pow]
  cases h : a.testBit k
  · simp
  · simp [(Nat.two_pow_pos k).ne']

lemma quadKeyChars_length (i x y : Nat) :
    (BingMapsProvider.quadKeyChars i x y).length = i := by
  induction i with
  | zero => rfl
  | succ k ih => simp [BingMapsProvider.quadKeyChars, ih]

/-- Closed form of the quadkey character list for zoom at most 32: the
character for bit position j is determined by bit j of x mod 2 to the 32
and bit j of y mod 2 to the 32, listed from the highest bit down. -/
lemma quadKeyChars_eq_map (i x y : Nat) (h : i ≤ 32) :
    BingMapsProvider.quadKeyChars i x y =
      (List.range i).reverse.map (fun j =>
        Char.ofNat (48 + (((x % 2 ^ 32).testBit j).toNat +
          2 * ((y % 2 ^ 32).testBit j).toNat))) := by
  induction i with
  | zero => rfl
  | succ k ih =>
    have hk : k % 32 = k := Nat.mod_eq_of_lt (by omega)
    rw [List.range_succ]
    simp only [List.reverse_append, List.reverse_cons, List.reverse_nil,
      List.nil_append, List.singleton_append, List.map_cons]
    rw [← ih (by omega)]
    simp only [BingMapsProvider.quadKeyChars, hk, ne_eq, land_two_pow_ne_zero_iff]
    cases hb : (x % 2 ^ 32).testBit k <;> cases hc : (y % 2 ^ 32).testBit k <;> rfl

lemma range_reverse_map_getElem? {α : Type} (f : Nat → α) (i j : Nat) (h : j < i) :
    ((List.range i).reverse.map f)[j]? = some (f (i - 1 - j)) := by
  induction i generalizing j with
  | zero => omega
  | succ k ih =>
    rw [List.range_succ]
    simp only [List.reverse_append, List.reverse_cons, List.reverse_nil,
      List.nil_append, List.singleton_append, List.map_cons]
    cases j with
    | zero => simp
    | succ j2 =>
      have hidx : k - 1 - j2 = k + 1 - 1 - (j2 + 1) := by omega
      rw [List.getElem?_cons_succ, ih j2 (by omega), hidx]

lemma digit_char_cases : ∀ b1 b2 : Bool,
    Char.ofNat (48 + (b1.toNat + 2 * b2.toNat)) = '0' ∨
    Char.ofNat (48 + (b1.toNat + 2 * b2.toNat)) = '1' ∨
    Char.ofNat (48 + (b1.toNat + 2 * b2.toNat)) = '2' ∨
    Char.ofNat (48 + (b1.toNat + 2 * b2.toNat)) = '3' := by decide

lemma digit_char_inj : ∀ b1 b2 c1 c2 : Bool,
    Char.ofNat (48 + (b1.toNat + 2 * b2.toNat)) =
      Char.ofNat (48 + (c1.toNat + 2 * c2.toNat)) → b1 = c1 ∧ b2 = c2 := by decide

lemma testBit_eq_false_of_lt {x n k : Nat} (hx : x < 2 ^ n) (hk : n ≤ k) :
    x.testBit k = false := by
  have h : (x % 2 ^ n).testBit k = false := by
    rw [Nat.testBit_mod_two_pow]
    simp [Nat.not_lt.mpr hk]
  rwa [Nat.mod_eq_of_lt hx] at h

lemma quadKeyChars_zero_zero (z : Nat) :
    BingMapsProvider.quadKeyChars z 0 0 = List.replicate z '0' := by
  induction z with
  | zero => rfl
  | succ k ih =>
    simp only [BingMapsProvider.quadKeyChars, Nat.zero_mod, Nat.zero_and,
      List.replicate_succ, ih]
    rfl

/-! ## Theorems about the claims -/

/-- C5: quadKey satisfies the specific values of the spec: zoom 0 yields
the empty string for every x and y, quadKey z 0 0 is the character 0
repeated z times for every z, and quadKey at zoom 1 maps (1,0) to 1,
(0,1) to 2 and (1,1) to 3. -/
theorem quadKey_specific_values :
    (∀ x y : Nat, BingMapsProvider.quadKey 0 x y = "") ∧
    (∀ z : Nat, BingMapsProvider.quadKey z 0 0 = ⟨List.replicate z '0'⟩) ∧
    BingMapsProvider.quadKey 1 1 0 = "1" ∧
    BingMapsProvider.quadKey 1 0 1 = "2" ∧
    BingMapsProvider.quadKey 1 1 1 = "3" :=
  ⟨fun _ _ => rfl, fun z => congrArg String.mk (quadKeyChars_zero_zero z),
    by decide, by decide, by decide⟩

/-- C6: quadKey is a pure, deterministic, total function of its three
arguments: it is embedded as a Lean function of exactly (zoom, x, y), so
two calls with equal arguments return equal strings and there is no
failure mode and no state outside the arguments and the result. -/
theorem quadKey_deterministic (z x y z2 x2 y2 : Nat)
    (hz : z = z2) (hx : x = x2) (hy : y = y2) :
    BingMapsProvider.quadKey z x y = BingMapsProvider.quadKey z2 x2 y2 := by
  subst hz; subst hx; subst hy; rfl

/-- Witness for C6 at the concrete input (3, 5, 7). -/
theorem quadKey_deterministic_witness :
    ((3 : Nat) = 3 ∧ (5 : Nat) = 5 ∧ (7 : Nat) = 7) ∧
    BingMapsProvider.quadKey 3 5 7 = BingMapsProvider.quadKey 3 5 7 :=
  ⟨⟨rfl, rfl, rfl⟩, quadKey_deterministic 3 5 7 3 5 7 rfl rfl rfl⟩

/-- C7: the constructor stores its two arguments, defaulting the API key
to the empty string when apiKey is undefined and the type to the AERIAL
constant, which is the string a, when type is undefined. -/
theorem constructor_defaults :
    (∀ a t : String,
      (BingMapsProvider.constructor (some a) (some t)).apiKey = a ∧
      (BingMapsProvider.constructor (some a) (some t)).type = t) ∧
    (∀ t : Option String, (BingMapsProvider.constructor none t).apiKey = "") ∧
    (∀ a : Option String,
      (BingMapsProvider.constructor a none).type = BingMapsProvider.AERIAL) ∧
    BingMapsProvider.AERIAL = "a" :=
  ⟨fun _ _ => ⟨rfl, rfl⟩, fun _ => rfl, fun _ => rfl, rfl⟩

/-- C8: loadHeightGeometry performs no work: it returns no value
(undefined, modelled Unit) and leaves every field of the node unchanged. -/
theorem loadHeightGeometry_noop {α β σ : Type} (n : MapHeightNodeShader α β σ) :
    MapHeightNodeShader.loadHeightGeometry n = (n, ()) := rfl

/-- C2 (amended): fetchTile builds the URL from the fixed string
http://ecn. followed by the subdomain field, the fixed host suffix
.tiles.virtualearth.net, the path /tiles/, the type field, the quadkey,
and the fixed trailer .jpeg?g=1173; the image extension is the literal
jpeg and the format field of the provider is not consulted. -/
theorem fetchTile_url_fixed (p : BingMapsProvider) (zoom x y : Nat) :
    BingMapsProvider.fetchTileUrl p zoom x y =
      "http://ecn." ++ p.subdomain ++ ".tiles.virtualearth.net/tiles/" ++ p.type ++
        BingMapsProvider.quadKey zoom x y ++ ".jpeg?g=1173" ∧
    ∀ f : String,
      BingMapsProvider.fetchTileUrl { p with format := f } zoom x y =
        BingMapsProvider.fetchTileUrl p zoom x y :=
  ⟨rfl, fun _ => rfl⟩

/-- Counterexample for C2 as stated: there is no choice of scheme, host
suffix and query making the URL built by fetchTile match the spec
template, because the template uses the format field as the image
extension while the source hardcodes the extension jpeg: two providers
differing only in the format field get the same URL from fetchTile but
different URLs from the template. -/
theorem fetchTile_url_template_cex :
    ¬ ∃ scheme hostSuffix query : String,
        ∀ (p : BingMapsProvider) (zoom x y : Nat),
          BingMapsProvider.fetchTileUrl p zoom x y =
            BingMapsProvider.specTemplateUrl scheme hostSuffix query p zoom x y := by
  rintro ⟨s, hs, q, H⟩
  have h1 := H { apiKey := "", type := "a" } 0 0 0
  have h2 := H { apiKey := "", type := "a", format := "png" } 0 0 0
  have h12 : BingMapsProvider.specTemplateUrl s hs q { apiKey := "", type := "a" } 0 0 0 =
      BingMapsProvider.specTemplateUrl s hs q { apiKey := "", type := "a", format := "png" } 0 0 0 := by
    rw [← h1]; exact h2
  have hl := congrArg String.length h12
  have e1 : ("jpeg" : String).length = 4 := rfl
  have e2 : ("png" : String).length = 3 := rfl
  simp [BingMapsProvider.specTemplateUrl, String.length_append, e1, e2] at hl

/-- C1 (amended): for zoom z at most 32 and coordinates below 2 to the z,
quadKey returns a string of length z over the alphabet 0 1 2 3 whose
character at index j, counting from the most significant digit, is the
digit for bit z - 1 - j of x plus twice bit z - 1 - j of y.  The bound
z at most 32 is forced by the 32-bit semantics of the JavaScript bitwise
operators; see the counterexample at zoom 33. -/
theorem quadKey_digits (z x y : Nat) (hz : z ≤ 32) (hx : x < 2 ^ z) (hy : y < 2 ^ z) :
    (BingMapsProvider.quadKey z x y).length = z ∧
    (∀ c ∈ (BingMapsProvider.quadKey z x y).data,
      c = '0' ∨ c = '1' ∨ c = '2' ∨ c = '3') ∧
    (∀ j, j < z → (BingMapsProvider.quadKey z x y).data[j]? =
      some (Char.ofNat (48 +
        ((x.testBit (z - 1 - j)).toNat + 2 * (y.testBit (z - 1 - j)).toNat)))) := by
  have h32 : (2 : Nat) ^ z ≤ 2 ^ 32 := Nat.pow_le_pow_right (by norm_num) hz
  have hx32 : x % 2 ^ 32 = x := Nat.mod_eq_of_lt (lt_of_lt_of_le hx h32)
  have hy32 : y % 2 ^ 32 = y := Nat.mod_eq_of_lt (lt_of_lt_of_le hy h32)
  have hq : (BingMapsProvider.quadKey z x y).data =
      (List.range z).reverse.map (fun j =>
        Char.ofNat (48 + ((x.testBit j).toNat + 2 * (y.testBit j).toNat))) := by
    have h := quadKeyChars_eq_map z x y hz
    rw [hx32, hy32] at h
    exact h
  refine ⟨quadKeyChars_length z x y, ?_, ?_⟩
  · intro c hc
    rw [hq] at hc
    obtain ⟨j, _, rfl⟩ := List.mem_map.mp hc
    exact digit_char_cases _ _
  · intro j hj
    rw [hq, range_reverse_map_getElem? _ z j hj]

/-- Witness for C1 at zoom 2, x 2, y 1, whose quadkey is the string 12. -/
theorem quadKey_digits_witness :
    (2 ≤ 32 ∧ 2 < 2 ^ 2 ∧ 1 < 2 ^ 2) ∧
    ((BingMapsProvider.quadKey 2 2 1).length = 2 ∧
     (∀ c ∈ (BingMapsProvider.quadKey 2 2 1).data,
       c = '0' ∨ c = '1' ∨ c = '2' ∨ c = '3') ∧
     (∀ j, j < 2 → (BingMapsProvider.quadKey 2 2 1).data[j]? =
       some (Char.ofNat (48 +
         (((2 : Nat).testBit (2 - 1 - j)).toNat +
           2 * ((1 : Nat).testBit (2 - 1 - j)).toNat))))) :=
  ⟨⟨by decide, by decide, by decide⟩,
    quadKey_digits 2 2 1 (by decide) (by decide) (by decide)⟩

/-- Counterexample for C1 as stated, which quantifies over every zoom
level: at zoom 33 with x equal to 2 to the 32 the most significant digit
should encode bit 32 of x, which is set, but the shift count of the
JavaScript left shift wraps mod 32 and the coordinate is truncated to 32
bits, so the code produces the digit 0. -/
theorem quadKey_digits_cex :
    ¬ ∀ (z x y : Nat), x < 2 ^ z → y < 2 ^ z →
      ((BingMapsProvider.quadKey z x y).length = z ∧
       (∀ c ∈ (BingMapsProvider.quadKey z x y).data,
         c = '0' ∨ c = '1' ∨ c = '2' ∨ c = '3') ∧
       (∀ j, j < z → (BingMapsProvider.quadKey z x y).data[j]? =
         some (Char.ofNat (48 +
           ((x.testBit (z - 1 - j)).toNat + 2 * (y.testBit (z - 1 - j)).toNat))))) := by
  intro H
  have h := (H 33 (2 ^ 32) 0 (by decide) (by decide)).2.2 0 (by decide)
  exact absurd h (by decide)

/-- C9: quadKey depends only on the low z bits of the coordinates: for
zoom at most 31 and coordinates in 32-bit range, reducing x and y mod
2 to the z does not change the quadkey, so out-of-range coordinates are
silently masked rather than rejected. -/
theorem quadKey_mod_masking (z x y : Nat) (hz : z ≤ 31)
    (hx : x < 2 ^ 32) (hy : y < 2 ^ 32) :
    BingMapsProvider.quadKey z x y =
      BingMapsProvider.quadKey z (x % 2 ^ z) (y % 2 ^ z) := by
  have hz32 : z ≤ 32 := by omega
  have hpow : (2 : Nat) ^ z ≤ 2 ^ 32 := Nat.pow_le_pow_right (by norm_num) hz32
  have hxm : x % 2 ^ z % 2 ^ 32 = x % 2 ^ z :=
    Nat.mod_eq_of_lt (lt_of_lt_of_le (Nat.mod_lt x (Nat.two_pow_pos z)) hpow)
  have hym : y % 2 ^ z % 2 ^ 32 = y % 2 ^ z :=
    Nat.mod_eq_of_lt (lt_of_lt_of_le (Nat.mod_lt y (Nat.two_pow_pos z)) hpow)
  apply congrArg String.mk
  rw [quadKeyChars_eq_map z x y hz32, quadKeyChars_eq_map z _ _ hz32]
  apply List.map_congr_left
  intro j hj
  have hjz : j < z := List.mem_range.mp (List.mem_reverse.mp hj)
  rw [Nat.mod_eq_of_lt hx, Nat.mod_eq_of_lt hy, hxm, hym,
    Nat.testBit_mod_two_pow, Nat.testBit_mod_two_pow]
  simp [hjz]

/-- Witness for C9 at zoom 2 with x 7 and y 5: the quadkey equals the one
of the masked coordinates 3 and 1. -/
theorem quadKey_mod_masking_witness :
    (2 ≤ 31 ∧ 7 < 2 ^ 32 ∧ 5 < 2 ^ 32) ∧
    BingMapsProvider.quadKey 2 7 5 =
      BingMapsProvider.quadKey 2 (7 % 2 ^ 2) (5 % 2 ^ 2) :=
  ⟨⟨by decide, by decide, by decide⟩,
    quadKey_mod_masking 2 7 5 (by decide) (by decide) (by decide)⟩

/-- C10 (amended): quadKey is injective on its valid domain at each fixed
zoom at most 32: valid coordinate pairs with the same quadkey are equal.
The bound z at most 32 is forced by the 32-bit semantics of the
JavaScript bitwise operators; see the counterexample at zoom 33. -/
theorem quadKey_injective (z x1 y1 x2 y2 : Nat) (hz : z ≤ 32)
    (hx1 : x1 < 2 ^ z) (hy1 : y1 < 2 ^ z) (hx2 : x2 < 2 ^ z) (hy2 : y2 < 2 ^ z)
    (h : BingMapsProvider.quadKey z x1 y1 = BingMapsProvider.quadKey z x2 y2) :
    x1 = x2 ∧ y1 = y2 := by
  have h32 : (2 : Nat) ^ z ≤ 2 ^ 32 := Nat.pow_le_pow_right (by norm_num) hz
  have m1 : x1 % 2 ^ 32 = x1 := Nat.mod_eq_of_lt (lt_of_lt_of_le hx1 h32)
  have m2 : y1 % 2 ^ 32 = y1 := Nat.mod_eq_of_lt (lt_of_lt_of_le hy1 h32)
  have m3 : x2 % 2 ^ 32 = x2 := Nat.mod_eq_of_lt (lt_of_lt_of_le hx2 h32)
  have m4 : y2 % 2 ^ 32 = y2 := Nat.mod_eq_of_lt (lt_of_lt_of_le hy2 h32)
  have hd : BingMapsProvider.quadKeyChars z x1 y1 =
      BingMapsProvider.quadKeyChars z x2 y2 := congrArg String.data h
  rw [quadKeyChars_eq_map z x1 y1 hz, quadKeyChars_eq_map z x2 y2 hz,
    m1, m2, m3, m4] at hd
  have key : ∀ k, k < z → x1.testBit k = x2.testBit k ∧ y1.testBit k = y2.testBit k := by
    intro k hk
    have hjz : z - 1 - k < z := by omega
    have e1 : ((List.range z).reverse.map (fun j =>
        Char.ofNat (48 + ((x1.testBit j).toNat + 2 * (y1.testBit j).toNat))))[z - 1 - k]? =
        ((List.range z).reverse.map (fun j =>
        Char.ofNat (48 + ((x2.testBit j).toNat + 2 * (y2.testBit j).toNat))))[z - 1 - k]? := by
      rw [hd]
    rw [range_reverse_map_getElem? _ z _ hjz, range_reverse_map_getElem? _ z _ hjz] at e1
    have hkk : z - 1 - (z - 1 - k) = k := by omega
    rw [hkk] at e1
    exact digit_char_inj _ _ _ _ (Option.some.inj e1)
  constructor
  · apply Nat.eq_of_testBit_eq
    intro k
    by_cases hk : k < z
    · exact (key k hk).1
    · rw [testBit_eq_false_of_lt hx1 (by omega), testBit_eq_false_of_lt hx2 (by omega)]
  · apply Nat.eq_of_testBit_eq
    intro k
    by_cases hk : k < z
    · exact (key k hk).2
    · rw [testBit_eq_false_of_lt hy1 (by omega), testBit_eq_false_of_lt hy2 (by omega)]

/-- Witness for C10 at zoom 1 with both pairs equal to (1, 0). -/
theorem quadKey_injective_witness :
    (1 ≤ 32 ∧ 1 < 2 ^ 1 ∧ 0 < 2 ^ 1) ∧ ((1 : Nat) = 1 ∧ (0 : Nat) = 0) :=
  ⟨⟨by decide, by decide, by decide⟩,
    quadKey_injective 1 1 0 1 0 (by decide) (by decide) (by decide) (by decide)
      (by decide) rfl⟩

/-- Counterexample for C10 as stated, which quantifies over every zoom
level: at zoom 33 the distinct valid tile addresses (2 to the 32, 0) and
(0, 0) receive the same quadkey, because the coordinates are truncated to
32 bits by the JavaScript bitwise AND. -/
theorem quadKey_injective_cex :
    BingMapsProvider.quadKey 33 (2 ^ 32) 0 = BingMapsProvider.quadKey 33 0 0 ∧
    (2 ^ 32 : Nat) < 2 ^ 33 ∧ (0 : Nat) < 2 ^ 33 ∧ (2 ^ 32 : Nat) ≠ 0 :=
  ⟨by decide, by decide, by decide, by decide⟩

/-! ## Helper lemmas about the fetch lifecycle -/

lemma fetchStep_settled (s : FetchState) (e : FetchEvent)
    (h : s.promise ≠ PromiseState.pending) :
    (fetchStep s e).outcomes = s.outcomes ∧ (fetchStep s e).promise = s.promise := by
  cases e <;> simp [fetchStep, h]

/-- Once the promise has left the pending state, later events change
neither the list of continuation invocations nor the promise state. -/
lemma fetchRun_settled (evs : List FetchEvent) : ∀ s : FetchState,
    s.promise ≠ PromiseState.pending →
    (evs.foldl fetchStep s).outcomes = s.outcomes ∧
    (evs.foldl fetchStep s).promise = s.promise := by
  induction evs with
  | nil => exact fun s _ => ⟨rfl, rfl⟩
  | cons e evs ih =>
    intro s h
    have hs := fetchStep_settled s e h
    have ht := ih (fetchStep s e) (by rw [hs.2]; exact h)
    constructor
    · rw [List.foldl_cons, ht.1, hs.1]
    · rw [List.foldl_cons, ht.2, hs.2]

lemma fetchStep_inv (s : FetchState) (e : FetchEvent)
    (h : (s.promise = PromiseState.pending ∨ s.promise = PromiseState.canceled) →
      s.outcomes = []) :
    ((fetchStep s e).promise = PromiseState.pending ∨
      (fetchStep s e).promise = PromiseState.canceled) →
    (fetchStep s e).outcomes = [] := by
  by_cases hp : s.promise = PromiseState.pending
  · cases e with
    | cancel =>
      intro _
      simp only [fetchStep, hp]
      exact h (Or.inl hp)
    | loadOk => simp [fetchStep, hp]
    | loadErr => simp [fetchStep, hp]
  · have hs := fetchStep_settled s e hp
    rw [hs.1, hs.2]
    exact h

/-- While the promise is pending or canceled, no continuation has
been invoked. -/
lemma fetchRun_inv (evs : List FetchEvent) : ∀ s : FetchState,
    ((s.promise = PromiseState.pending ∨ s.promise = PromiseState.canceled) →
      s.outcomes = []) →
    (((evs.foldl fetchStep s).promise = PromiseState.pending ∨
      (evs.foldl fetchStep s).promise = PromiseState.canceled) →
      (evs.foldl fetchStep s).outcomes = []) := by
  induction evs with
  | nil => exact fun s h => h
  | cons e evs ih =>
    intro s h
    rw [List.foldl_cons]
    exact ih (fetchStep s e) (fetchStep_inv s e h)

lemma fetchRun_pending_outcomes (evs : List FetchEvent)
    (h : (fetchRun evs).promise = PromiseState.pending) :
    (fetchRun evs).outcomes = [] :=
  fetchRun_inv evs fetchTileStart (fun _ => rfl) (Or.inl h)

/-- C3 (amended): if the caller cancels while the promise is still
pending then neither the success nor the failure continuation is ever
invoked and the handle stays canceled, whatever the transport does
afterwards; the in-flight image load itself is however not aborted, see
the counterexample. -/
theorem fetchTile_cancel_no_settlement (pre post : List FetchEvent)
    (h : (fetchRun pre).promise = PromiseState.pending) :
    (fetchRun (pre ++ FetchEvent.cancel :: post)).outcomes = [] ∧
    (fetchRun (pre ++ FetchEvent.cancel :: post)).promise = PromiseState.canceled := by
  have hnil : (fetchRun pre).outcomes = [] := fetchRun_pending_outcomes pre h
  have hsplit : fetchRun (pre ++ FetchEvent.cancel :: post) =
      post.foldl fetchStep (fetchStep (fetchRun pre) FetchEvent.cancel) := by
    simp [fetchRun, List.foldl_append]
  have hc : (fetchStep (fetchRun pre) FetchEvent.cancel).promise =
      PromiseState.canceled := by
    simp [fetchStep, h]
  have ho : (fetchStep (fetchRun pre) FetchEvent.cancel).outcomes = [] := by
    simp [fetchStep, hnil]
  have hfin := fetchRun_settled post (fetchStep (fetchRun pre) FetchEvent.cancel)
    (by rw [hc]; intro hx; exact PromiseState.noConfusion hx)
  constructor
  · rw [hsplit, hfin.1, ho]
  · rw [hsplit, hfin.2, hc]

/-- Witness for C3: cancel as the very first event. -/
theorem fetchTile_cancel_no_settlement_witness :
    (fetchRun []).promise = PromiseState.pending ∧
    ((fetchRun ([] ++ FetchEvent.cancel :: [])).outcomes = [] ∧
     (fetchRun ([] ++ FetchEvent.cancel :: [])).promise = PromiseState.canceled) :=
  ⟨rfl, fetchTile_cancel_no_settlement [] [] rfl⟩

/-- Counterexample for C3 as stated: after a cancel before settlement the
promise is canceled but the image load is still in flight, because the
executor in fetchTile registers no abort action and the image element is
local to the executor closure, so nothing can abort the transport. -/
theorem fetchTile_cancel_cex :
    (fetchRun [FetchEvent.cancel]).promise = PromiseState.canceled ∧
    (fetchRun [FetchEvent.cancel]).transportActive = true := by
  constructor <;> rfl

/-- C4: a fetch whose transport fails or whose payload is not a decodable
image, and which is not canceled first, settles as failed exactly once,
with reject called with no argument, and the success continuation is
never invoked.  Transport failure and decode failure both fire the
onerror handler of the image element, which calls reject(). -/
theorem fetchTile_error_rejects_once (pre post : List FetchEvent)
    (hv : validTrace (pre ++ FetchEvent.loadErr :: post))
    (hc : FetchEvent.cancel ∉ pre) :
    (fetchRun (pre ++ FetchEvent.loadErr :: post)).outcomes = [Outcome.failure none] ∧
    (fetchRun (pre ++ FetchEvent.loadErr :: post)).promise = PromiseState.rejected := by
  have hpre : pre = [] := by
    cases pre with
    | nil => rfl
    | cons e pre2 =>
      exfalso
      cases e
      case cancel => exact hc (List.mem_cons_self _ _)
      case loadOk =>
        simp [validTrace, List.filter_append, List.filter_cons, isLoadEvent] at hv
      case loadErr =>
        simp [validTrace, List.filter_append, List.filter_cons, isLoadEvent] at hv
  subst hpre
  have h1 : fetchStep fetchTileStart FetchEvent.loadErr =
      { promise := PromiseState.rejected, outcomes := [Outcome.failure none],
        transportActive := false } := rfl
  have hfin := fetchRun_settled post (fetchStep fetchTileStart FetchEvent.loadErr)
    (by rw [h1]; intro hx; exact PromiseState.noConfusion hx)
  have hsplit : fetchRun ([] ++ FetchEvent.loadErr :: post) =
      post.foldl fetchStep (fetchStep fetchTileStart FetchEvent.loadErr) := rfl
  constructor
  · rw [hsplit, hfin.1, h1]
  · rw [hsplit, hfin.2, h1]

/-- Witness for C4: the trace with the single event loadErr. -/
theorem fetchTile_error_rejects_once_witness :
    validTrace ([] ++ FetchEvent.loadErr :: []) ∧
    FetchEvent.cancel ∉ ([] : List FetchEvent) ∧
    ((fetchRun ([] ++ FetchEvent.loadErr :: [])).outcomes = [Outcome.failure none] ∧
     (fetchRun ([] ++ FetchEvent.loadErr :: [])).promise = PromiseState.rejected) :=
  ⟨by simp [validTrace, isLoadEvent], by simp,
    fetchTile_error_rejects_once [] [] (by simp [validTrace, isLoadEvent]) (by simp)⟩

end GeoThree
